import Mathlib

/-!
# Verification of the yt content-ingestion core

Shallow embedding of the repository's core logic:

* the WebVTT transcript parser `_parse_vtt_content` from
  `src/transcript/src/transcript/extractor.py` (a fuel-indexed line scanner;
  fuel exhaustion models the Python `while` loop failing to advance),
* the `TranscriptSegment` dataclass validation from
  `src/common/src/common/types.py`,
* the retry classifiers `_should_retry_extraction`, `_should_retry_scraping`
  and `_should_retry_conversion`,
* the `get_transcript` control flow and its tenacity retry decorator,
* the text projections `transcript_to_text` and `transcript_to_timed_text`.

Strings are modelled as `List Char` at the character level; Python floats are
modelled as `ℚ` (all constants involved are exactly representable); Python
exceptions are modelled as explicit `Except`/sum values.
-/

/-- Python whitespace for `str.strip` and the regex class `\s` (ASCII part). -/
def pyIsSpace (c : Char) : Bool :=
  c == ' ' || c == '\t' || c == '\n' || c == '\r' || c == '\x0b' || c == '\x0c'

/-- ASCII decimal digit, the regex class `\d` (ASCII part). -/
def pyIsDigit (c : Char) : Bool :=
  48 ≤ c.toNat && c.toNat ≤ 57

/-- Numeric value of a decimal digit character. -/
def digitVal (c : Char) : Nat := c.toNat - 48

/-- Python `str.strip()`: drop whitespace from both ends. -/
def pyStrip (cs : List Char) : List Char :=
  (((cs.dropWhile pyIsSpace).reverse).dropWhile pyIsSpace).reverse

/-- `leadsWith needle l` is true when `needle` is an initial segment of `l`
(Python `str.startswith`). -/
def leadsWith : List Char → List Char → Bool
  | [], _ => true
  | _ :: _, [] => false
  | a :: as, b :: bs => a == b && leadsWith as bs

/-- Python substring containment `needle in hay`. -/
def hasSub (needle : List Char) : List Char → Bool
  | [] => leadsWith needle []
  | c :: rest => leadsWith needle (c :: rest) || hasSub needle rest

/-- The literal `-->` looked for on timestamp lines. -/
def arrowLit : List Char := ['-', '-', '>']

/-- Drop an exact literal from the front of a character list. -/
def dropLit : List Char → List Char → Option (List Char)
  | [], cs => some cs
  | _ :: _, [] => none
  | l :: ls, c :: cs => if c = l then dropLit ls cs else none

/-- Exactly two decimal digits, returning their value (regex `\d{2}`). -/
def parse2digits : List Char → Option (Nat × List Char)
  | c1 :: c2 :: rest =>
    if pyIsDigit c1 && pyIsDigit c2 then
      some (10 * digitVal c1 + digitVal c2, rest)
    else none
  | _ => none

/-- Exactly three decimal digits, returning their value (regex `\d{3}`). -/
def parse3digits : List Char → Option (Nat × List Char)
  | c1 :: c2 :: c3 :: rest =>
    if pyIsDigit c1 && pyIsDigit c2 && pyIsDigit c3 then
      some (100 * digitVal c1 + 10 * digitVal c2 + digitVal c3, rest)
    else none
  | _ => none

/-- One required character. -/
def expectChar (c : Char) : List Char → Option (List Char)
  | d :: rest => if d = c then some rest else none
  | [] => none

/-- The literal `-->` in the timestamp regex. -/
def expectArrow : List Char → Option (List Char)
  | '-' :: '-' :: '>' :: rest => some rest
  | _ => none

/-- One `HH:MM:SS.mmm` timestamp (regex `(\d{2}):(\d{2}):(\d{2})\.(\d{3})`),
returning the four capture groups. -/
def parseTs (cs : List Char) : Option (Nat × Nat × Nat × Nat × List Char) :=
  (parse2digits cs).bind fun hr =>
  (expectChar ':' hr.2).bind fun r2 =>
  (parse2digits r2).bind fun mr =>
  (expectChar ':' mr.2).bind fun r4 =>
  (parse2digits r4).bind fun sr =>
  (expectChar '.' sr.2).bind fun r6 =>
  (parse3digits r6).map fun msr =>
  (hr.1, mr.1, sr.1, msr.1, msr.2)

/-- The four capture groups of one timestamp: hours, minutes, seconds,
milliseconds. -/
abbrev Ts4 := Nat × Nat × Nat × Nat

/-- `re.match` of the full timestamp-line pattern
`(\d{2}):(\d{2}):(\d{2})\.(\d{3})\s*-->\s*(\d{2}):(\d{2}):(\d{2})\.(\d{3})`:
anchored at the start, trailing characters ignored. -/
def matchTimestamp (cs : List Char) : Option (Ts4 × Ts4) :=
  (parseTs cs).bind fun g1 =>
  (expectArrow ((g1.2.2.2.2).dropWhile pyIsSpace)).bind fun r2 =>
  (parseTs (r2.dropWhile pyIsSpace)).map fun g2 =>
  ((g1.1, g1.2.1, g1.2.2.1, g1.2.2.2.1), (g2.1, g2.2.1, g2.2.2.1, g2.2.2.2.1))

/-- `H*3600 + M*60 + S + ms/1000`, the parser's seconds conversion. -/
def toSecs (t : Ts4) : ℚ :=
  t.1 * 3600 + t.2.1 * 60 + t.2.2.1 + (t.2.2.2 : ℚ) / 1000

/-- Scan to just past the first `>`; `none` if there is none. -/
def skipToGt : List Char → Option (List Char)
  | [] => none
  | c :: rest => if c = '>' then some rest else skipToGt rest

/-- Match of `<[^>]+>` anchored at the head of the list, returning the
remainder past the closing `>`. -/
def matchTag : List Char → Option (List Char)
  | [] => none
  | c :: rest =>
    if c = '<' then
      match rest with
      | [] => none
      | d :: rest2 => if d = '>' then none else skipToGt rest2
    else none

/-- The literal part of the styling-annotation regex
`align:start position:\d+%`. -/
def annotLit : List Char := "align:start position:".data

/-- Match of `align:start position:\d+%` anchored at the head of the list. -/
def matchAnnot (cs : List Char) : Option (List Char) :=
  match dropLit annotLit cs with
  | none => none
  | some r =>
    match r with
    | [] => none
    | c :: r2 =>
      if pyIsDigit c then expectChar '%' (r2.dropWhile pyIsDigit) else none

/-- Left-to-right scan removing every non-overlapping match found by `m`
(the scanning discipline of `re.sub(pattern, '', ·)`): try a match at each
position, skip past it on success, advance one character on failure. The fuel
is initialised with the list length, which always suffices because a
successful match always consumes at least one character. -/
def reSubGo (m : List Char → Option (List Char)) : Nat → List Char → List Char
  | 0, cs => cs
  | _ + 1, [] => []
  | fuel + 1, c :: rest =>
    match m (c :: rest) with
    | some rest2 => reSubGo m fuel rest2
    | none => c :: reSubGo m fuel rest

/-- `re.sub(r'<[^>]+>', '', ·)`. -/
def stripTags (cs : List Char) : List Char :=
  reSubGo matchTag cs.length cs

/-- `re.sub(r'align:start position:\d+%', '', ·)`. -/
def stripAnnot (cs : List Char) : List Char :=
  reSubGo matchAnnot cs.length cs

/-- The per-line cue-text processing of the parser's inner loop:
`strip`, then tag removal, then annotation removal. -/
def processTextLine (l : List Char) : List Char :=
  stripAnnot (stripTags (pyStrip l))

/-- Python `sep.join(pieces)`. -/
def joinWith (sep : List Char) : List (List Char) → List Char
  | [] => []
  | [l] => l
  | l :: l2 :: ls => l ++ sep ++ joinWith sep (l2 :: ls)

/-- The parser's inner `while` loop: consume text lines while the current
line is non-blank and carries no `-->`, collecting the processed lines that
remain non-empty; return them with the unconsumed remainder. -/
def takeCueLines : List (List Char) → List (List Char) × List (List Char)
  | [] => ([], [])
  | l :: rest =>
    if pyStrip l ≠ [] ∧ hasSub arrowLit l = false then
      match takeCueLines rest with
      | (ts, rem) =>
        (if processTextLine l ≠ [] then processTextLine l :: ts else ts, rem)
    else ([], l :: rest)

/-- `TranscriptSegment` from `src/common/src/common/types.py`. -/
structure TranscriptSegment where
  text : String
  start : ℚ
  duration : ℚ
  confidence : Option ℚ
deriving DecidableEq, Repr

/-- `TranscriptSegment.__post_init__` validation: a Python construction either
yields the dataclass value or raises `ValueError` (modelled as `Except.error`
with a fixed message; the Python interpolated values are dropped). -/
def TranscriptSegment.make (text : String) (start duration : ℚ)
    (confidence : Option ℚ) : Except String TranscriptSegment :=
  if start < 0 then Except.error "Start time cannot be negative"
  else if duration ≤ 0 then Except.error "Duration must be positive"
  else
    match confidence with
    | some c =>
      if c < 0 ∨ 1 < c then Except.error "Confidence must be between 0.0 and 1.0"
      else Except.ok ⟨text, start, duration, confidence⟩
    | none => Except.ok ⟨text, start, duration, none⟩

/-- Observable outcome of `_parse_vtt_content`: a returned list of segments,
a raised exception, or no outcome at all because the `while` loop never
advances (`hang`; fuel exhaustion in the model). -/
inductive VttResult
  | ok (segs : List TranscriptSegment)
  | err (msg : String)
  | hang
deriving DecidableEq, Repr

/-- `WEBVTT` / `Kind:` / `Language:` header-line test on the stripped line. -/
def headerSkip (line : List Char) : Bool :=
  leadsWith "WEBVTT".data line || leadsWith "Kind:".data line ||
    leadsWith "Language:".data line

/-- The `while i < len(lines)` loop of `_parse_vtt_content`, fuel-indexed.
Each iteration consumes one unit of fuel; the branch for a line containing
`-->` that fails the timestamp pattern leaves the line list unchanged, exactly
as the Python code leaves `i` unchanged there. -/
def parseVttFuel : Nat → List (List Char) → List TranscriptSegment → VttResult
  | 0, _, _ => VttResult.hang
  | _ + 1, [], acc => VttResult.ok acc
  | fuel + 1, l :: rest, acc =>
    if headerSkip (pyStrip l) then parseVttFuel fuel rest acc
    else if hasSub arrowLit (pyStrip l) then
      match matchTimestamp (pyStrip l) with
      | some (t1, t2) =>
        match takeCueLines rest with
        | (textLines, rest2) =>
          if textLines = [] then parseVttFuel fuel rest2 acc
          else if pyStrip (joinWith [' '] textLines) = [] then
            parseVttFuel fuel rest2 acc
          else
            match TranscriptSegment.make
                (String.mk (pyStrip (joinWith [' '] textLines)))
                (toSecs t1) (toSecs t2 - toSecs t1) none with
            | Except.ok seg => parseVttFuel fuel rest2 (acc ++ [seg])
            | Except.error m => VttResult.err m
      | none => parseVttFuel fuel (l :: rest) acc
    else parseVttFuel fuel rest acc

/-- Python `str.split('\n')`: split on newlines, keeping empty pieces. -/
def splitOnNl : List Char → List (List Char)
  | [] => [[]]
  | c :: rest =>
    match splitOnNl rest with
    | [] => [[c]]
    | l :: ls => if c = '\n' then [] :: l :: ls else (c :: l) :: ls

/-- `TranscriptExtractor._parse_vtt_content`. The fuel `lines.length + 1`
is enough for every terminating run of the Python loop (each iteration that
makes progress consumes at least one line); runs in which the loop stops
advancing are reported as `hang`. -/
def parse_vtt_content (s : String) : VttResult :=
  parseVttFuel ((splitOnNl s.data).length + 1) (splitOnNl s.data) []

/-- Two-digit zero-padded decimal rendering (Python `%02d` for values
up to 99). -/
def pad2 (n : Nat) : List Char := [Nat.digitChar (n / 10), Nat.digitChar (n % 10)]

/-- Three-digit zero-padded decimal rendering (Python `%03d` for values
up to 999). -/
def pad3 (n : Nat) : List Char :=
  [Nat.digitChar (n / 100), Nat.digitChar (n / 10 % 10), Nat.digitChar (n % 10)]

/-- Render one `HH:MM:SS.mmm` timestamp. -/
def renderTs (t : Ts4) : List Char :=
  pad2 t.1 ++ ':' :: pad2 t.2.1 ++ ':' :: pad2 t.2.2.1 ++ '.' :: pad3 t.2.2.2

/-- Render a full `HH:MM:SS.mmm --> HH:MM:SS.mmm` timestamp line. -/
def tsLineOf (t1 t2 : Ts4) : List Char :=
  renderTs t1 ++ ' ' :: '-' :: '-' :: '>' :: ' ' :: renderTs t2

/-- One cue of a well-formed WebVTT file: a timestamp range and its raw
text lines. -/
structure Cue where
  startTs : Ts4
  endTs : Ts4
  textLines : List (List Char)

/-- Render one cue block: timestamp line, text lines, terminating blank
line. -/
def renderCue (c : Cue) : List (List Char) :=
  tsLineOf c.startTs c.endTs :: c.textLines ++ [[]]

/-- Lines of a rendered WebVTT file: header, blank line, cue blocks. -/
def vttLines (cues : List Cue) : List (List Char) :=
  "WEBVTT".data :: [] :: (cues.map renderCue).flatten

/-- Render a list of cues as one WebVTT file string. -/
def renderVtt (cues : List Cue) : String :=
  String.mk (joinWith ['\n'] (vttLines cues))

/-- The segment the parser is expected to produce for one cue. -/
def cueToSegment (c : Cue) : TranscriptSegment :=
  { text := String.mk (pyStrip (joinWith [' ']
      ((c.textLines.map processTextLine).filter (fun t => t ≠ []))))
    start := toSecs c.startTs
    duration := toSecs c.endTs - toSecs c.startTs
    confidence := none }

/-- Timestamp fields within the fixed widths of the pattern. -/
def wfTs (t : Ts4) : Prop :=
  t.1 ≤ 99 ∧ t.2.1 ≤ 99 ∧ t.2.2.1 ≤ 99 ∧ t.2.2.2 ≤ 999

/-- A well-formed cue: in-range timestamp fields, positive duration,
and at least one text line, each line being single-line, blank-free,
`-->`-free and carrying visible text after the per-line processing. -/
def wfCue (c : Cue) : Prop :=
  wfTs c.startTs ∧ wfTs c.endTs ∧ toSecs c.startTs < toSecs c.endTs ∧
  c.textLines ≠ [] ∧
  ∀ l ∈ c.textLines, hasSub arrowLit l = false ∧ '\n' ∉ l ∧
    pyStrip l ≠ [] ∧ ∃ ch ∈ processTextLine l, pyIsSpace ch = false

instance : DecidablePred wfTs := fun _ =>
  inferInstanceAs (Decidable (_ ∧ _ ∧ _ ∧ _))

instance (c : Cue) : Decidable (wfCue c) :=
  inferInstanceAs (Decidable (_ ∧ _ ∧ _ ∧ _ ∧ _))

/-- Python `str.lower()` (ASCII part). -/
def pyLower (s : String) : String := s.map Char.toLower

/-- Python `needle in hay` on strings. -/
def containsSubstr (hay needle : String) : Bool := hasSub needle.data hay.data

/-- `any(indicator in error_msg for indicator in indicators)` where
`error_msg` is the lowercased message. -/
def anyIndicator (inds : List String) (msg : String) : Bool :=
  inds.any (fun i => containsSubstr (pyLower msg) i)

/-- Permanent-error keywords of `_should_retry_scraping`
(`src/scrape/src/scrape/scraper.py`). -/
def scrapePermanentIndicators : List String :=
  ["invalid url", "not found", "404", "403", "forbidden", "unauthorized",
   "invalid api key", "api key not found"]

/-- Transient-error keywords of `_should_retry_scraping`. -/
def scrapeTransientIndicators : List String :=
  ["connection error", "timeout", "network", "503", "502", "500", "429",
   "rate limit", "quota exceeded"]

/-- Permanent-error keywords of `_should_retry_conversion`
(`src/pdf/src/pdf/converter.py`). -/
def pdfPermanentIndicators : List String :=
  ["invalid pdf", "corrupted", "not a pdf", "permission denied",
   "no such file", "invalid format"]

/-- Transient-error keywords of `_should_retry_conversion`. -/
def pdfTransientIndicators : List String :=
  ["connection error", "timeout", "network", "temporary failure", "memory",
   "disk space"]

/-- `_should_retry_scraping`, as a function of `str(exception)`:
permanent keywords first (no retry), then transient keywords (retry),
else no retry. -/
def _should_retry_scraping (errorMsg : String) : Bool :=
  if anyIndicator scrapePermanentIndicators errorMsg then false
  else if anyIndicator scrapeTransientIndicators errorMsg then true
  else false

/-- `_should_retry_conversion`, as a function of `str(exception)`. -/
def _should_retry_conversion (errorMsg : String) : Bool :=
  if anyIndicator pdfPermanentIndicators errorMsg then false
  else if anyIndicator pdfTransientIndicators errorMsg then true
  else false

/-- The Python exceptions relevant to the transcript extractor, each
carrying its `str(exception)` message. `otherExc` stands for any exception
outside the named classes (for example `ValueError`). -/
inductive PyExc
  | transcriptsDisabled (msg : String)
  | noTranscriptFound (msg : String)
  | videoUnavailable (msg : String)
  | transcriptExtractorError (msg : String)
  | calledProcessError (msg : String)
  | otherExc (msg : String)
deriving DecidableEq, Repr

/-- `str(exception)` of a modelled exception. -/
def PyExc.msg : PyExc → String
  | .transcriptsDisabled m => m
  | .noTranscriptFound m => m
  | .videoUnavailable m => m
  | .transcriptExtractorError m => m
  | .calledProcessError m => m
  | .otherExc m => m

/-- `isinstance(e, subprocess.CalledProcessError)`. -/
def PyExc.isCalledProcessError : PyExc → Bool
  | .calledProcessError _ => true
  | _ => false

/-- Membership in the `TranscriptExtractorError` hierarchy. -/
def PyExc.isExtractorError : PyExc → Bool
  | .transcriptsDisabled _ => true
  | .noTranscriptFound _ => true
  | .videoUnavailable _ => true
  | .transcriptExtractorError _ => true
  | _ => false

/-- Network-error keywords of `_should_retry_extraction`
(`src/transcript/src/transcript/extractor.py`). -/
def networkErrorIndicators : List String :=
  ["connection error", "timeout", "network", "503", "502", "500"]

/-- `_should_retry_extraction`: never retry the three permanent extractor
errors, always retry `CalledProcessError`, otherwise retry exactly when the
lowercased message contains a network-error keyword. -/
def _should_retry_extraction (e : PyExc) : Bool :=
  match e with
  | .transcriptsDisabled _ => false
  | .noTranscriptFound _ => false
  | .videoUnavailable _ => false
  | .calledProcessError _ => true
  | .transcriptExtractorError m => anyIndicator networkErrorIndicators m
  | .otherExc m => anyIndicator networkErrorIndicators m

instance {ε α : Type} [DecidableEq ε] [DecidableEq α] : DecidableEq (Except ε α) :=
  fun a b =>
    match a, b with
    | .ok x, .ok y =>
      if h : x = y then isTrue (by rw [h]) else isFalse (fun he => by cases he; exact h rfl)
    | .error x, .error y =>
      if h : x = y then isTrue (by rw [h]) else isFalse (fun he => by cases he; exact h rfl)
    | .ok _, .error _ => isFalse (fun he => by cases he)
    | .error _, .ok _ => isFalse (fun he => by cases he)

/-- Outcome of the external `yt-dlp` subprocess run inside
`get_transcript`: success with the list of downloaded `.vtt` files (name and
content), `subprocess.CalledProcessError` with the combined stderr/stdout
text, or `subprocess.TimeoutExpired`. -/
inductive YtOutcome
  | success (vttFiles : List (String × String))
  | procError (errorOutput : String)
  | timedOut
deriving Repr

/-- The body of `get_transcript` (the function tenacity wraps), as a
function of the subprocess outcome. `none` models the body never returning
because `_parse_vtt_content` hangs. The `raise NoTranscriptFound` for an
empty segment list sits inside the `try` whose handler wraps every
`Exception` into `TranscriptExtractorError`, so it surfaces as
`TranscriptExtractorError`. -/
def getTranscriptBody (o : YtOutcome) :
    Option (Except PyExc (List TranscriptSegment)) :=
  match o with
  | .procError out =>
    if containsSubstr out "Private video" ||
        containsSubstr out "This video is unavailable" then
      some (Except.error (.videoUnavailable out))
    else if containsSubstr out "No automatic captions" ||
        containsSubstr out "No subtitles" then
      some (Except.error (.noTranscriptFound out))
    else some (Except.error (.transcriptExtractorError out))
  | .timedOut =>
    some (Except.error (.transcriptExtractorError
      "yt-dlp timed out while extracting transcript"))
  | .success files =>
    match files with
    | [] => some (Except.error (.noTranscriptFound
        "No subtitle files were downloaded"))
    | (_, content) :: _ =>
      match parse_vtt_content content with
      | VttResult.hang => none
      | VttResult.err m => some (Except.error (.transcriptExtractorError
          ("Failed to parse VTT content: " ++ m)))
      | VttResult.ok segs =>
        if segs = [] then
          some (Except.error (.transcriptExtractorError
            "Failed to parse VTT content: No transcript segments found"))
        else some (Except.ok segs)

/-- Modelled from the spec: the retry execution wrapper (tenacity's `retry`
decorator, whose code is outside this repository). Given a retry predicate
and an attempt budget, run the operation; on an error the predicate accepts,
retry while attempts remain; otherwise propagate. Returns the number of
completed executions together with the final outcome; `none` absorbs a
non-returning body. -/
def retryCall {α : Type} (pred : PyExc → Bool) :
    Nat → Option (Except PyExc α) → Nat × Option (Except PyExc α)
  | 0, body => (0, body)
  | 1, body => (1, body)
  | n + 2, body =>
    match body with
    | some (Except.error e) =>
      if pred e then
        ((retryCall pred (n + 1) body).1 + 1, (retryCall pred (n + 1) body).2)
      else (1, body)
    | _ => (1, body)

/-- `get_transcript` with its decorator
`retry(stop=stop_after_attempt(3), retry=retry_if_exception_type(CalledProcessError))`. -/
def get_transcript (o : YtOutcome) :
    Nat × Option (Except PyExc (List TranscriptSegment)) :=
  retryCall PyExc.isCalledProcessError 3 (getTranscriptBody o)

/-- Modelled from the spec: `backoff_delay(attempt_number)` — the code is
tenacity's `wait_exponential(multiplier, min, max)`, outside this
repository; the spec describes exponential backoff with a configurable
multiplier clamped to a `[min, max]` range. -/
def backoff_delay (multiplier minBound maxBound : ℚ) (attempt : Nat) : ℚ :=
  max minBound (min (multiplier * 2 ^ (attempt - 1)) maxBound)

/-- Python `sep.join(strings)`. -/
def joinStr (sep : String) : List String → String
  | [] => ""
  | [x] => x
  | x :: y :: rest => x ++ sep ++ joinStr sep (y :: rest)

/-- `TranscriptExtractor.transcript_to_text`: segment texts joined by
single spaces. -/
def transcript_to_text (transcript : List TranscriptSegment) : String :=
  joinStr " " (transcript.map (fun seg => seg.text))

/-- Python `f"{n:02d}"` for an integer. -/
def fmt02d (n : Int) : String :=
  if 0 ≤ n ∧ n < 10 then "0" ++ toString n else toString n

/-- `int(segment.start // 60)`: floored minutes. -/
def segMinutes (seg : TranscriptSegment) : Int := ⌊seg.start / 60⌋

/-- `int(segment.start % 60)`: the Python float modulo is
`start - 60 * (start // 60)`, a value in `[0, 60)` that `int` floors. -/
def segSeconds (seg : TranscriptSegment) : Int :=
  ⌊seg.start - 60 * (⌊seg.start / 60⌋ : ℚ)⌋

/-- `TranscriptExtractor.transcript_to_timed_text`: one
`[MM:SS] text` line per segment, joined by newlines. -/
def transcript_to_timed_text (transcript : List TranscriptSegment) : String :=
  joinStr "\n" (transcript.map (fun seg =>
    "[" ++ fmt02d (segMinutes seg) ++ ":" ++ fmt02d (segSeconds seg) ++ "] " ++
      seg.text))

/-- Modelled from the claim's wording, for refinement comparison with the
code's per-cue text assembly: strip tags and the styling annotation first,
then trim each line, drop lines that became empty, and join the retained
lines with single spaces. -/
def cueTextSpec (lines : List (List Char)) : List Char :=
  joinWith [' ']
    ((lines.map (fun l => pyStrip (stripAnnot (stripTags l)))).filter
      (fun t => t ≠ []))

/-- Facts about digit characters used by the rendering lemmas. -/
theorem digitChar_spec {d : Nat} (h : d ≤ 9) :
    pyIsDigit (Nat.digitChar d) = true ∧ digitVal (Nat.digitChar d) = d ∧
    pyIsSpace (Nat.digitChar d) = false ∧ Nat.digitChar d ≠ '\n' ∧
    ('W' == Nat.digitChar d) = false ∧ ('K' == Nat.digitChar d) = false ∧
    ('L' == Nat.digitChar d) = false := by
  interval_cases d <;> exact (by decide)

theorem parse2digits_pad2 {n : Nat} (h : n ≤ 99) (rest : List Char) :
    parse2digits (pad2 n ++ rest) = some (n, rest) := by
  have h1 : n / 10 ≤ 9 := by omega
  have h2 : n % 10 ≤ 9 := by omega
  obtain ⟨d1, v1, -⟩ := digitChar_spec h1
  obtain ⟨d2, v2, -⟩ := digitChar_spec h2
  simp [pad2, parse2digits, d1, d2, v1, v2]
  omega

theorem parse3digits_pad3 {n : Nat} (h : n ≤ 999) (rest : List Char) :
    parse3digits (pad3 n ++ rest) = some (n, rest) := by
  have h1 : n / 100 ≤ 9 := by omega
  have h2 : n / 10 % 10 ≤ 9 := by omega
  have h3 : n % 10 ≤ 9 := by omega
  obtain ⟨d1, v1, -⟩ := digitChar_spec h1
  obtain ⟨d2, v2, -⟩ := digitChar_spec h2
  obtain ⟨d3, v3, -⟩ := digitChar_spec h3
  simp [pad3, parse3digits, d1, d2, d3, v1, v2, v3]
  omega

theorem parseTs_render {a b c d : Nat} (ha : a ≤ 99) (hb : b ≤ 99)
    (hc : c ≤ 99) (hd : d ≤ 999) (rest : List Char) :
    parseTs (renderTs (a, b, c, d) ++ rest) = some (a, b, c, d, rest) := by
  have e1 : renderTs (a, b, c, d) ++ rest =
      pad2 a ++ (':' :: (pad2 b ++ (':' :: (pad2 c ++ ('.' :: (pad3 d ++ rest)))))) := by
    simp [renderTs]
  rw [e1]
  simp [parseTs, expectChar, parse2digits_pad2 ha, parse2digits_pad2 hb,
    parse2digits_pad2 hc, parse3digits_pad3 hd]

theorem dropWhile_head_false {p : Char → Bool} {cs : List Char}
    (h : ∀ ch, cs.head? = some ch → p ch = false) : cs.dropWhile p = cs := by
  cases cs with
  | nil => rfl
  | cons a t =>
    rw [List.dropWhile_cons, h a rfl]
    simp

theorem pyStrip_eq_self {cs : List Char}
    (hh : ∀ ch, cs.head? = some ch → pyIsSpace ch = false)
    (hl : ∀ ch, cs.getLast? = some ch → pyIsSpace ch = false) :
    pyStrip cs = cs := by
  unfold pyStrip
  rw [dropWhile_head_false hh]
  rw [dropWhile_head_false (fun ch hch => hl ch (by rwa [List.head?_reverse] at hch))]
  exact List.reverse_reverse cs

theorem dropWhile_eq_nil_all {p : Char → Bool} {cs : List Char}
    (h : cs.dropWhile p = []) : ∀ ch ∈ cs, p ch = true := by
  induction cs with
  | nil => simp
  | cons a t ih =>
    rw [List.dropWhile_cons] at h
    by_cases hpa : p a = true
    · rw [if_pos hpa] at h
      intro ch hch
      rcases List.mem_cons.mp hch with rfl | hm
      · exact hpa
      · exact ih h ch hm
    · rw [if_neg hpa] at h
      cases h

theorem mem_dropWhile_of_false {p : Char → Bool} {cs : List Char} {ch : Char}
    (hmem : ch ∈ cs) (hp : p ch = false) : ch ∈ cs.dropWhile p := by
  induction cs with
  | nil => simp at hmem
  | cons a t ih =>
    rw [List.dropWhile_cons]
    by_cases hpa : p a = true
    · rw [if_pos hpa]
      rcases List.mem_cons.mp hmem with rfl | hm
      · rw [hpa] at hp; cases hp
      · exact ih hm
    · rw [if_neg hpa]
      exact hmem

theorem pyStrip_ne_nil {cs : List Char} (h : ∃ ch ∈ cs, pyIsSpace ch = false) :
    pyStrip cs ≠ [] := by
  obtain ⟨ch, hmem, hp⟩ := h
  intro he
  unfold pyStrip at he
  rw [List.reverse_eq_nil_iff] at he
  have h2 := dropWhile_eq_nil_all he ch
    (List.mem_reverse.mpr (mem_dropWhile_of_false hmem hp))
  rw [hp] at h2
  cases h2

theorem mem_joinWith {sep : List Char} {ls : List (List Char)} {x : List Char}
    {ch : Char} (hx : x ∈ ls) (hc : ch ∈ x) : ch ∈ joinWith sep ls := by
  induction ls with
  | nil => simp at hx
  | cons l ls ih =>
    cases ls with
    | nil =>
      rw [List.mem_singleton] at hx
      subst hx
      simpa [joinWith] using hc
    | cons l2 ls2 =>
      rw [joinWith]
      rcases List.mem_cons.mp hx with rfl | hx2
      · simp [hc]
      · simp [ih hx2]

theorem hasSub_append_left {n : List Char} (pre : List Char) {l : List Char}
    (h : hasSub n l = true) : hasSub n (pre ++ l) = true := by
  induction pre with
  | nil => simpa
  | cons c p ih =>
    rw [List.cons_append, hasSub]
    simp [ih]

theorem takeCueLines_spec {tls : List (List Char)} (tail : List (List Char))
    (h : ∀ l ∈ tls, pyStrip l ≠ [] ∧ hasSub arrowLit l = false) :
    takeCueLines (tls ++ [] :: tail) =
      ((tls.map processTextLine).filter (fun t => t ≠ []), [] :: tail) := by
  induction tls with
  | nil =>
    rw [List.nil_append, takeCueLines]
    have : ¬(pyStrip ([] : List Char) ≠ [] ∧ hasSub arrowLit [] = false) := by
      intro hcon
      exact hcon.1 rfl
    rw [if_neg this]
    simp
  | cons l tls ih =>
    have hl := h l (List.mem_cons_self l tls)
    rw [List.cons_append, takeCueLines, if_pos ⟨hl.1, hl.2⟩,
      ih (fun l' hl' => h l' (List.mem_cons_of_mem l hl'))]
    simp only [List.map_cons, List.filter_cons]
    by_cases hp : processTextLine l ≠ []
    · rw [if_pos hp]
      simp [hp]
    · rw [if_neg hp]
      simp [hp]

theorem splitOnNl_ne_nil {l : List Char} : splitOnNl l ≠ [] := by
  cases l with
  | nil => simp [splitOnNl]
  | cons c t =>
    rw [splitOnNl]
    cases h : splitOnNl t with
    | nil => simp
    | cons x xs =>
      by_cases hc : c = '\n' <;> simp [hc]

theorem splitOnNl_no_newline {l : List Char} (h : '\n' ∉ l) :
    splitOnNl l = [l] := by
  induction l with
  | nil => rfl
  | cons c t ih =>
    have hc : c ≠ '\n' := fun e => h (by simp [e])
    have ht : '\n' ∉ t := fun m => h (List.mem_cons_of_mem c m)
    rw [splitOnNl, ih ht]
    simp [hc]

theorem splitOnNl_append {l : List Char} (r : List Char) (h : '\n' ∉ l) :
    splitOnNl (l ++ '\n' :: r) = l :: splitOnNl r := by
  induction l with
  | nil =>
    rw [List.nil_append, splitOnNl]
    cases hsp : splitOnNl r with
    | nil => exact absurd hsp splitOnNl_ne_nil
    | cons x xs => simp
  | cons c t ih =>
    have hc : c ≠ '\n' := fun e => h (by simp [e])
    have ht : '\n' ∉ t := fun m => h (List.mem_cons_of_mem c m)
    rw [List.cons_append, splitOnNl, ih ht]
    simp [hc]

theorem splitOnNl_joinWith :
    ∀ (ls : List (List Char)), ls ≠ [] → (∀ l ∈ ls, '\n' ∉ l) →
      splitOnNl (joinWith ['\n'] ls) = ls := by
  intro ls
  induction ls with
  | nil => intro hne _; cases hne rfl
  | cons l ls ih =>
    intro _ h
    cases ls with
    | nil => exact splitOnNl_no_newline (h l (List.mem_singleton.mpr rfl))
    | cons l2 ls2 =>
      rw [joinWith,
        show l ++ ['\n'] ++ joinWith ['\n'] (l2 :: ls2) =
          l ++ '\n' :: joinWith ['\n'] (l2 :: ls2) by simp,
        splitOnNl_append _ (h l (List.mem_cons_self l (l2 :: ls2))),
        ih (by simp) (fun l' hl' => h l' (List.mem_cons_of_mem l hl'))]

theorem tsLineOf_cons (a1 b1 c1 d1 : Nat) (t2 : Ts4) :
    tsLineOf (a1, b1, c1, d1) t2 =
      Nat.digitChar (a1 / 10) :: (Nat.digitChar (a1 % 10) :: ':' ::
        (pad2 b1 ++ ':' :: (pad2 c1 ++ '.' ::
          (pad3 d1 ++ ' ' :: '-' :: '-' :: '>' :: ' ' :: renderTs t2)))) := by
  simp [tsLineOf, renderTs, pad2]

theorem tsLineOf_concat (t1 : Ts4) (a2 b2 c2 d2 : Nat) :
    tsLineOf t1 (a2, b2, c2, d2) =
      (renderTs t1 ++ ' ' :: '-' :: '-' :: '>' :: ' ' ::
        (pad2 a2 ++ ':' :: (pad2 b2 ++ ':' :: (pad2 c2 ++ '.' ::
          [Nat.digitChar (d2 / 100), Nat.digitChar (d2 / 10 % 10)])))) ++
        [Nat.digitChar (d2 % 10)] := by
  simp [tsLineOf, renderTs, pad2, pad3]

theorem matchTimestamp_tsLine {t1 t2 : Ts4} (h1 : wfTs t1) (h2 : wfTs t2)
    (rest : List Char) :
    matchTimestamp (tsLineOf t1 t2 ++ rest) = some (t1, t2) := by
  obtain ⟨a1, b1, c1, d1⟩ := t1
  obtain ⟨a2, b2, c2, d2⟩ := t2
  obtain ⟨ha1, hb1, hc1, hd1⟩ := h1
  obtain ⟨ha2, hb2, hc2, hd2⟩ := h2
  have e1 : tsLineOf (a1, b1, c1, d1) (a2, b2, c2, d2) ++ rest =
      renderTs (a1, b1, c1, d1) ++
        (' ' :: '-' :: '-' :: '>' :: ' ' :: (renderTs (a2, b2, c2, d2) ++ rest)) := by
    simp [tsLineOf]
  have e2 : (renderTs (a2, b2, c2, d2) ++ rest).dropWhile pyIsSpace =
      renderTs (a2, b2, c2, d2) ++ rest := by
    apply dropWhile_head_false
    intro ch hch
    rw [show renderTs (a2, b2, c2, d2) ++ rest =
        Nat.digitChar (a2 / 10) :: (Nat.digitChar (a2 % 10) :: ':' ::
          (pad2 b2 ++ ':' :: (pad2 c2 ++ '.' :: (pad3 d2 ++ rest)))) from by
      simp [renderTs, pad2]] at hch
    simp only [List.head?_cons, Option.some.injEq] at hch
    rw [← hch]
    exact (digitChar_spec (show a2 / 10 ≤ 9 by omega)).2.2.1
  rw [e1, matchTimestamp, parseTs_render ha1 hb1 hc1 hd1, Option.some_bind]
  dsimp only
  rw [show (' ' :: '-' :: '-' :: '>' :: ' ' ::
        (renderTs (a2, b2, c2, d2) ++ rest)).dropWhile pyIsSpace =
      '-' :: '-' :: '>' :: ' ' :: (renderTs (a2, b2, c2, d2) ++ rest) from by
    rw [List.dropWhile_cons]
    simp [show pyIsSpace ' ' = true from rfl, List.dropWhile_cons,
      show pyIsSpace '-' = false from rfl]]
  rw [show expectArrow ('-' :: '-' :: '>' :: ' ' ::
      (renderTs (a2, b2, c2, d2) ++ rest)) =
    some (' ' :: (renderTs (a2, b2, c2, d2) ++ rest)) from rfl]
  rw [Option.some_bind]
  rw [show (' ' :: (renderTs (a2, b2, c2, d2) ++ rest)).dropWhile pyIsSpace =
      (renderTs (a2, b2, c2, d2) ++ rest).dropWhile pyIsSpace from by
    rw [List.dropWhile_cons]
    simp [show pyIsSpace ' ' = true from rfl]]
  rw [e2, parseTs_render ha2 hb2 hc2 hd2]
  rfl

theorem pyStrip_tsLine {t1 t2 : Ts4} (h1 : wfTs t1) (h2 : wfTs t2) :
    pyStrip (tsLineOf t1 t2) = tsLineOf t1 t2 := by
  obtain ⟨a1, b1, c1, d1⟩ := t1
  obtain ⟨a2, b2, c2, d2⟩ := t2
  obtain ⟨ha1, hb1, hc1, hd1⟩ := h1
  obtain ⟨ha2, hb2, hc2, hd2⟩ := h2
  apply pyStrip_eq_self
  · intro ch hch
    rw [tsLineOf_cons] at hch
    simp only [List.head?_cons, Option.some.injEq] at hch
    rw [← hch]
    exact (digitChar_spec (show a1 / 10 ≤ 9 by omega)).2.2.1
  · intro ch hch
    rw [tsLineOf_concat, List.getLast?_concat, Option.some.injEq] at hch
    rw [← hch]
    exact (digitChar_spec (show d2 % 10 ≤ 9 by omega)).2.2.1

theorem headerSkip_digit {c : Char} (hd : pyIsDigit c = true) (rest : List Char) :
    headerSkip (c :: rest) = false := by
  have hW : ('W' == c) = false := by
    rw [beq_eq_false_iff_ne]
    intro e
    rw [← e] at hd
    exact absurd hd (by decide)
  have hK : ('K' == c) = false := by
    rw [beq_eq_false_iff_ne]
    intro e
    rw [← e] at hd
    exact absurd hd (by decide)
  have hL : ('L' == c) = false := by
    rw [beq_eq_false_iff_ne]
    intro e
    rw [← e] at hd
    exact absurd hd (by decide)
  rw [headerSkip,
    show "WEBVTT".data = 'W' :: "EBVTT".data from rfl,
    show "Kind:".data = 'K' :: "ind:".data from rfl,
    show "Language:".data = 'L' :: "anguage:".data from rfl]
  simp [leadsWith, hW, hK, hL]

theorem headerSkip_tsLine {t1 t2 : Ts4} (h1 : wfTs t1) :
    headerSkip (tsLineOf t1 t2) = false := by
  obtain ⟨a1, b1, c1, d1⟩ := t1
  obtain ⟨ha1, -, -, -⟩ := h1
  rw [tsLineOf_cons]
  exact headerSkip_digit (digitChar_spec (show a1 / 10 ≤ 9 by omega)).1 _

theorem hasSub_arrow_tsLine {t1 t2 : Ts4} :
    hasSub arrowLit (tsLineOf t1 t2) = true := by
  rw [show tsLineOf t1 t2 =
      renderTs t1 ++ (' ' :: '-' :: '-' :: '>' :: ' ' :: renderTs t2) from by
    simp [tsLineOf]]
  apply hasSub_append_left
  rw [hasSub]
  have h0 : leadsWith arrowLit (' ' :: '-' :: '-' :: '>' :: ' ' :: renderTs t2) = false := by
    simp [arrowLit, leadsWith]
  rw [h0, Bool.false_or, hasSub]
  have h1 : leadsWith arrowLit ('-' :: '-' :: '>' :: ' ' :: renderTs t2) = true := by
    simp [arrowLit, leadsWith]
  rw [h1, Bool.true_or]

theorem parseVttFuel_blank_step (f : Nat) (rest : List (List Char))
    (acc : List TranscriptSegment) :
    parseVttFuel (f + 1) ([] :: rest) acc = parseVttFuel f rest acc := rfl

theorem parseVttFuel_webvtt_step (f : Nat) (rest : List (List Char))
    (acc : List TranscriptSegment) :
    parseVttFuel (f + 1) ("WEBVTT".data :: rest) acc = parseVttFuel f rest acc := rfl

theorem parseVttFuel_cue_step (f : Nat) (c : Cue) (tail : List (List Char))
    (acc : List TranscriptSegment) (h : wfCue c) :
    parseVttFuel (f + 1) (renderCue c ++ tail) acc =
      parseVttFuel f ([] :: tail) (acc ++ [cueToSegment c]) := by
  obtain ⟨hw1, hw2, hlt, hne, hlines⟩ := h
  have hshape : renderCue c ++ tail =
      tsLineOf c.startTs c.endTs :: (c.textLines ++ [] :: tail) := by
    simp [renderCue]
  have hstrip : pyStrip (tsLineOf c.startTs c.endTs) = tsLineOf c.startTs c.endTs :=
    pyStrip_tsLine hw1 hw2
  have hheader : headerSkip (tsLineOf c.startTs c.endTs) = false :=
    headerSkip_tsLine hw1
  have harrow : hasSub arrowLit (tsLineOf c.startTs c.endTs) = true :=
    hasSub_arrow_tsLine
  have hmatch : matchTimestamp (tsLineOf c.startTs c.endTs) =
      some (c.startTs, c.endTs) := by
    have := matchTimestamp_tsLine hw1 hw2 []
    rwa [List.append_nil] at this
  have htake : takeCueLines (c.textLines ++ [] :: tail) =
      ((c.textLines.map processTextLine).filter (fun t => t ≠ []), [] :: tail) :=
    takeCueLines_spec _ (fun l hl => ⟨(hlines l hl).2.2.1, (hlines l hl).1⟩)
  have hkeep : (c.textLines.map processTextLine).filter (fun t => t ≠ []) =
      c.textLines.map processTextLine := by
    rw [List.filter_eq_self]
    intro a ha
    obtain ⟨l, hl, rfl⟩ := List.mem_map.mp ha
    obtain ⟨ch, hch, -⟩ := (hlines l hl).2.2.2
    simp only [ne_eq, decide_eq_true_eq]
    exact List.ne_nil_of_mem hch
  have hmapne : ¬(c.textLines.map processTextLine = []) := by
    simp only [List.map_eq_nil_iff]
    exact hne
  have htext : ¬(pyStrip (joinWith [' '] (c.textLines.map processTextLine)) = []) := by
    obtain ⟨l0, hl0⟩ := List.exists_mem_of_ne_nil _ hne
    obtain ⟨ch, hch, hsp⟩ := (hlines l0 hl0).2.2.2
    exact pyStrip_ne_nil ⟨ch, mem_joinWith (List.mem_map_of_mem processTextLine hl0) hch, hsp⟩
  have hstart : ¬(toSecs c.startTs < 0) := by
    simp only [not_lt, toSecs]
    positivity
  have hdur : ¬(toSecs c.endTs - toSecs c.startTs ≤ 0) := by
    simp only [not_le]
    exact sub_pos.mpr hlt
  rw [hshape]
  have hkeep2 : (c.textLines.map processTextLine).filter (fun t => !decide (t = [])) =
      c.textLines.map processTextLine := by
    rw [List.filter_eq_self]
    intro a ha
    obtain ⟨l, hl, rfl⟩ := List.mem_map.mp ha
    obtain ⟨ch, hch, -⟩ := (hlines l hl).2.2.2
    simp only [Bool.not_eq_true', decide_eq_false_iff_not]
    exact List.ne_nil_of_mem hch
  simp only [parseVttFuel, hstrip, hheader, harrow, hmatch, htake, hkeep,
    Bool.false_eq_true, if_false, if_neg hmapne, if_neg htext,
    TranscriptSegment.make, if_neg hstart, if_neg hdur, if_true]
  simp [cueToSegment, hkeep2]

theorem parseVtt_cues (cues : List Cue) :
    ∀ (acc : List TranscriptSegment) (fuel : Nat),
      (∀ c ∈ cues, wfCue c) →
      (cues.map renderCue).flatten.length + 1 ≤ fuel →
      parseVttFuel fuel (cues.map renderCue).flatten acc =
        VttResult.ok (acc ++ cues.map cueToSegment) := by
  induction cues with
  | nil =>
    intro acc fuel _ hfuel
    obtain ⟨f, rfl⟩ : ∃ f, fuel = f + 1 := ⟨fuel - 1, by simp at hfuel; omega⟩
    simp [parseVttFuel]
  | cons c cs ih =>
    intro acc fuel hwf hfuel
    have hflat : ((c :: cs).map renderCue).flatten =
        renderCue c ++ (cs.map renderCue).flatten := by
      simp
    have hlen : (renderCue c).length = c.textLines.length + 2 := by
      simp [renderCue]
    obtain ⟨f, rfl⟩ : ∃ f, fuel = f + 2 := by
      refine ⟨fuel - 2, ?_⟩
      rw [hflat] at hfuel
      simp [hlen] at hfuel
      omega
    rw [hflat, show f + 2 = (f + 1) + 1 from rfl,
      parseVttFuel_cue_step (f + 1) c _ acc (hwf c (List.mem_cons_self c cs)),
      parseVttFuel_blank_step,
      ih (acc ++ [cueToSegment c]) f
        (fun c' hc' => hwf c' (List.mem_cons_of_mem c hc'))
        (by
          rw [hflat] at hfuel
          simp [hlen] at hfuel ⊢
          omega)]
    simp

theorem digitChar_ne_newline {d : Nat} (h : d ≤ 9) : '\n' ≠ Nat.digitChar d :=
  fun e => (digitChar_spec h).2.2.2.1 e.symm

/-- A rendered timestamp line contains no newline character. -/
theorem tsLine_no_newline {t1 t2 : Ts4} (h1 : wfTs t1) (h2 : wfTs t2) :
    '\n' ∉ tsLineOf t1 t2 := by
  obtain ⟨a1, b1, c1, d1⟩ := t1
  obtain ⟨a2, b2, c2, d2⟩ := t2
  obtain ⟨ha1, hb1, hc1, hd1⟩ := h1
  obtain ⟨ha2, hb2, hc2, hd2⟩ := h2
  have Hb1 : b1 ≤ 99 := hb1
  have Hc1 : c1 ≤ 99 := hc1
  have Hd1 : d1 ≤ 999 := hd1
  have Hb2 : b2 ≤ 99 := hb2
  have Hc2 : c2 ≤ 99 := hc2
  have Hd2 : d2 ≤ 999 := hd2
  intro hmem
  rw [show tsLineOf (a1, b1, c1, d1) (a2, b2, c2, d2) =
        [Nat.digitChar (a1 / 10), Nat.digitChar (a1 % 10), ':',
         Nat.digitChar (b1 / 10), Nat.digitChar (b1 % 10), ':',
         Nat.digitChar (c1 / 10), Nat.digitChar (c1 % 10), '.',
         Nat.digitChar (d1 / 100), Nat.digitChar (d1 / 10 % 10), Nat.digitChar (d1 % 10),
         ' ', '-', '-', '>', ' ',
         Nat.digitChar (a2 / 10), Nat.digitChar (a2 % 10), ':',
         Nat.digitChar (b2 / 10), Nat.digitChar (b2 % 10), ':',
         Nat.digitChar (c2 / 10), Nat.digitChar (c2 % 10), '.',
         Nat.digitChar (d2 / 100), Nat.digitChar (d2 / 10 % 10), Nat.digitChar (d2 % 10)]
    from by simp [tsLineOf, renderTs, pad2, pad3]] at hmem
  simp only [List.mem_cons, List.not_mem_nil, or_false] at hmem
  rcases hmem with e | e | e | e | e | e | e | e | e | e | e | e | e | e | e | e | e |
    e | e | e | e | e | e | e | e | e | e | e | e
  all_goals first
    | (refine digitChar_ne_newline ?_ e
       omega)
    | (exact absurd e (by decide))

/-- The lines of a rendered VTT file contain no newline characters. -/
theorem vttLines_no_newline {cues : List Cue} (h : ∀ c ∈ cues, wfCue c) :
    ∀ l ∈ vttLines cues, '\n' ∉ l := by
  intro l hl
  rw [vttLines] at hl
  rcases List.mem_cons.mp hl with rfl | hl2
  · decide
  rcases List.mem_cons.mp hl2 with rfl | hl3
  · simp
  obtain ⟨block, hblock, hlb⟩ := List.mem_flatten.mp hl3
  obtain ⟨c, hc, rfl⟩ := List.mem_map.mp hblock
  obtain ⟨hw1, hw2, -, -, hlines⟩ := h c hc
  rw [renderCue] at hlb
  rcases List.mem_cons.mp hlb with rfl | hlb2
  · exact tsLine_no_newline hw1 hw2
  rcases List.mem_append.mp hlb2 with hlb3 | hlb4
  · exact (hlines l hlb3).2.1
  · rw [List.mem_singleton] at hlb4
    subst hlb4
    simp

/-- C3: for every well-formed VTT input with N cues each having non-empty
text after stripping, `_parse_vtt_content` returns exactly N segments whose
order matches the order of the cues in the input, and no returned segment
has empty text. -/
theorem c3_roundtrip (cues : List Cue) (h : ∀ c ∈ cues, wfCue c) :
    parse_vtt_content (renderVtt cues) = VttResult.ok (cues.map cueToSegment) ∧
    (cues.map cueToSegment).length = cues.length ∧
    ∀ seg ∈ cues.map cueToSegment, seg.text ≠ "" := by
  refine ⟨?_, by simp, ?_⟩
  · have hsplit : splitOnNl (renderVtt cues).data = vttLines cues := by
      show splitOnNl (joinWith ['\n'] (vttLines cues)) = vttLines cues
      exact splitOnNl_joinWith _ (by rw [vttLines]; simp) (vttLines_no_newline h)
    rw [parse_vtt_content, hsplit, vttLines]
    rw [show ("WEBVTT".data :: [] :: (cues.map renderCue).flatten).length + 1 =
      ((cues.map renderCue).flatten.length + 1 + 1) + 1 by simp]
    rw [parseVttFuel_webvtt_step, parseVttFuel_blank_step]
    rw [parseVtt_cues cues [] ((cues.map renderCue).flatten.length + 1) h (by omega)]
    simp
  · intro seg hseg
    obtain ⟨c, hc, rfl⟩ := List.mem_map.mp hseg
    obtain ⟨-, -, -, hne, hlines⟩ := h c hc
    intro he
    have hX : pyStrip (joinWith [' ']
        ((c.textLines.map processTextLine).filter (fun t => t ≠ []))) = [] :=
      congrArg String.data he
    obtain ⟨l0, hl0⟩ := List.exists_mem_of_ne_nil _ hne
    obtain ⟨ch, hch, hsp⟩ := (hlines l0 hl0).2.2.2
    have hmemf : processTextLine l0 ∈
        (c.textLines.map processTextLine).filter (fun t => t ≠ []) := by
      refine List.mem_filter.mpr ⟨List.mem_map_of_mem processTextLine hl0, ?_⟩
      simp only [ne_eq, decide_eq_true_eq]
      exact List.ne_nil_of_mem hch
    exact pyStrip_ne_nil ⟨ch, mem_joinWith hmemf hch, hsp⟩ hX

/-- C1: the claim asserts that `_parse_vtt_content` always terminates in a
single pass and that a line containing a malformed `-->` simply advances the
cursor. On the code, the branch for a `-->` line that fails the timestamp
pattern never increments `i`, so the loop never terminates: at the input
`"foo --> bar"` the loop state is a fixpoint and no amount of fuel produces
a result. -/
theorem c1_malformed_timestamp_line_diverges :
    (∀ (fuel : Nat) (acc : List TranscriptSegment),
      parseVttFuel fuel (splitOnNl "foo --> bar".data) acc = VttResult.hang) ∧
    parse_vtt_content "foo --> bar" = VttResult.hang := by
  have key : ∀ (fuel : Nat) (acc : List TranscriptSegment),
      parseVttFuel fuel (splitOnNl "foo --> bar".data) acc = VttResult.hang := by
    intro fuel
    induction fuel with
    | zero => intro acc; rfl
    | succ n ih => intro acc; exact ih acc
  exact ⟨key, key _ _⟩

/-- C2 counterexample: a cue whose end timestamp precedes its start and whose
text is non-empty makes `_parse_vtt_content` raise: the
`TranscriptSegment.__post_init__` duration validation fires inside the
parser, contradicting the claim that the parser does not raise on such
cues. -/
theorem c2_duration_validation_raises :
    parse_vtt_content "WEBVTT\n\n00:00:02.000 --> 00:00:01.000\nhello" =
      VttResult.err "Duration must be positive" := by
  with_unfolding_all decide

theorem parseVtt_err_aux :
    ∀ (fuel : Nat) (lines : List (List Char)) (acc : List TranscriptSegment)
      (m : String), parseVttFuel fuel lines acc = VttResult.err m →
      m = "Duration must be positive" := by
  intro fuel
  induction fuel with
  | zero =>
    intro lines acc m h
    simp [parseVttFuel] at h
  | succ n ih =>
    intro lines acc m h
    cases lines with
    | nil => simp [parseVttFuel] at h
    | cons l rest =>
      simp only [parseVttFuel] at h
      repeat' split at h
      all_goals try exact ih _ _ _ h
      all_goals rename_i hh harrow xo t1 t2 hmt htl htx xe m2 hmake
      all_goals
        (have hstart : ¬(toSecs t1 < 0) := by
           simp only [not_lt, toSecs]
           positivity
         rw [TranscriptSegment.make, if_neg hstart] at hmake
         by_cases hd : toSecs t2 - toSecs t1 ≤ 0
         · rw [if_pos hd] at hmake
           cases hmake
           cases h
           rfl
         · rw [if_neg hd] at hmake
           cases hmake)

/-- C2 (amended): the parser's own matching and skipping logic raises
nothing — a cue that fails to match or yields empty text is skipped
silently — but a matched cue with non-empty text whose duration is not
positive makes the `TranscriptSegment` duration validation raise `ValueError`
inside `_parse_vtt_content`, and that validation error is the only exception
the parser body can produce (a parsed start time is never negative and the
parser passes no confidence value). -/
theorem c2_parser_raises_only_duration_error (s : String) (m : String)
    (h : parse_vtt_content s = VttResult.err m) :
    m = "Duration must be positive" :=
  parseVtt_err_aux _ _ _ _ h

theorem c2_parser_raises_only_duration_error_witness :
    ("Duration must be positive" : String) = "Duration must be positive" :=
  c2_parser_raises_only_duration_error
    "WEBVTT\n\n00:00:02.000 --> 00:00:01.000\nhello"
    "Duration must be positive" (by with_unfolding_all decide)

/-- C4: the message-based classifiers return no-retry whenever a
permanent-list keyword matches the lowercased message, even when a
transient-list keyword also matches, and no-retry when neither list
matches; a message containing both `404` and `timeout` classifies as
no-retry. -/
theorem c4_permanent_short_circuit :
    (∀ msg : String,
      (anyIndicator scrapePermanentIndicators msg = true →
        _should_retry_scraping msg = false) ∧
      (anyIndicator scrapePermanentIndicators msg = false →
        anyIndicator scrapeTransientIndicators msg = false →
        _should_retry_scraping msg = false) ∧
      (anyIndicator pdfPermanentIndicators msg = true →
        _should_retry_conversion msg = false) ∧
      (anyIndicator pdfPermanentIndicators msg = false →
        anyIndicator pdfTransientIndicators msg = false →
        _should_retry_conversion msg = false)) ∧
    _should_retry_scraping "Error 404: timeout" = false ∧
    anyIndicator scrapeTransientIndicators "Error 404: timeout" = true ∧
    anyIndicator scrapePermanentIndicators "Error 404: timeout" = true := by
  refine ⟨?_, by with_unfolding_all decide, by with_unfolding_all decide,
    by with_unfolding_all decide⟩
  intro msg
  refine ⟨fun h1 => ?_, fun h1 h2 => ?_, fun h1 => ?_, fun h1 h2 => ?_⟩
  · simp [_should_retry_scraping, h1]
  · simp [_should_retry_scraping, h1, h2]
  · simp [_should_retry_conversion, h1]
  · simp [_should_retry_conversion, h1, h2]

theorem c4_permanent_short_circuit_witness :
    _should_retry_scraping "Error 404: timeout" = false ∧
    _should_retry_conversion "nothing recognisable" = false :=
  ⟨(c4_permanent_short_circuit.1 "Error 404: timeout").1
      (by with_unfolding_all decide),
   ((c4_permanent_short_circuit.1 "nothing recognisable").2.2.2
      (by with_unfolding_all decide) (by with_unfolding_all decide))⟩

/-- C5: a line matching `HH:MM:SS.mmm --> HH:MM:SS.mmm` (trailing cue
settings allowed) is parsed into its eight capture groups, each timestamp is
converted to seconds as `H*3600 + M*60 + S + ms/1000`, and the emitted
segment carries `duration = end_seconds - start_seconds`; in particular
`00:01:05.250 --> 00:01:07.500` yields a segment with `start = 65.25` and
`duration = 2.25`. -/
theorem c5_timestamp_conversion :
    (∀ t1 t2 : Ts4, wfTs t1 → wfTs t2 → ∀ trailing : List Char,
      matchTimestamp (tsLineOf t1 t2 ++ trailing) = some (t1, t2) ∧
      toSecs t1 = t1.1 * 3600 + t1.2.1 * 60 + t1.2.2.1 + (t1.2.2.2 : ℚ) / 1000) ∧
    parse_vtt_content "00:01:05.250 --> 00:01:07.500\nhi" =
      VttResult.ok [⟨"hi", 65.25, 2.25, none⟩] := by
  constructor
  · intro t1 t2 h1 h2 trailing
    exact ⟨matchTimestamp_tsLine h1 h2 trailing, rfl⟩
  · with_unfolding_all decide

theorem c5_timestamp_conversion_witness :
    matchTimestamp (tsLineOf (0, 1, 5, 250) (0, 1, 7, 500) ++ []) =
      some ((0, 1, 5, 250), (0, 1, 7, 500)) ∧
    toSecs (0, 1, 5, 250) = 65.25 :=
  ⟨(c5_timestamp_conversion.1 (0, 1, 5, 250) (0, 1, 7, 500)
      (by decide) (by decide) []).1,
   by with_unfolding_all decide⟩

theorem retryCall_no_retry {α : Type} (pred : PyExc → Bool)
    (body : Option (Except PyExc α))
    (h : ∀ e, body = some (Except.error e) → pred e = false) :
    retryCall pred 3 body = (1, body) := by
  cases body with
  | none => rfl
  | some r =>
    cases r with
    | ok v => rfl
    | error e =>
      have hp := h e rfl
      simp [retryCall, hp]

theorem getTranscriptBody_errors (o : YtOutcome) :
    ∀ e : PyExc, getTranscriptBody o = some (Except.error e) →
      PyExc.isExtractorError e = true ∧ PyExc.isCalledProcessError e = false := by
  intro e he
  cases o with
  | procError out =>
    rw [getTranscriptBody] at he
    split at he
    · simp only [Option.some.injEq, Except.error.injEq] at he
      subst he
      exact ⟨rfl, rfl⟩
    split at he
    · simp only [Option.some.injEq, Except.error.injEq] at he
      subst he
      exact ⟨rfl, rfl⟩
    · simp only [Option.some.injEq, Except.error.injEq] at he
      subst he
      exact ⟨rfl, rfl⟩
  | timedOut =>
    rw [getTranscriptBody] at he
    simp only [Option.some.injEq, Except.error.injEq] at he
    subst he
    exact ⟨rfl, rfl⟩
  | success files =>
    cases files with
    | nil =>
      simp only [getTranscriptBody, Option.some.injEq, Except.error.injEq] at he
      subst he
      exact ⟨rfl, rfl⟩
    | cons f fs =>
      obtain ⟨name, content⟩ := f
      simp only [getTranscriptBody] at he
      split at he
      · cases he
      · simp only [Option.some.injEq, Except.error.injEq] at he
        subst he
        exact ⟨rfl, rfl⟩
      · split at he
        · simp only [Option.some.injEq, Except.error.injEq] at he
          subst he
          exact ⟨rfl, rfl⟩
        · cases he

/-- C6: `get_transcript` never retries: its retry decorator only retries
`subprocess.CalledProcessError`, but every error the wrapped body can
surface is one of the `TranscriptExtractorError` kinds and never
`CalledProcessError`, so the body executes exactly once for every subprocess
outcome. -/
theorem c6_get_transcript_never_retries (o : YtOutcome) :
    (get_transcript o).1 = 1 ∧
    ∀ e : PyExc, (get_transcript o).2 = some (Except.error e) →
      PyExc.isExtractorError e = true ∧ PyExc.isCalledProcessError e = false := by
  have hb := getTranscriptBody_errors o
  have hr : retryCall PyExc.isCalledProcessError 3 (getTranscriptBody o) =
      (1, getTranscriptBody o) :=
    retryCall_no_retry _ _ (fun e he => (hb e he).2)
  rw [get_transcript, hr]
  exact ⟨rfl, hb⟩

theorem c6_get_transcript_never_retries_witness :
    (get_transcript YtOutcome.timedOut).1 = 1 ∧
    PyExc.isExtractorError
      (.transcriptExtractorError "yt-dlp timed out while extracting transcript") = true ∧
    PyExc.isCalledProcessError
      (.transcriptExtractorError "yt-dlp timed out while extracting transcript") = false :=
  ⟨(c6_get_transcript_never_retries YtOutcome.timedOut).1,
   ((c6_get_transcript_never_retries YtOutcome.timedOut).2 _ rfl).1,
   ((c6_get_transcript_never_retries YtOutcome.timedOut).2 _ rfl).2⟩

/-- C7 (spec-modelled): for a fixed non-negative multiplier and clamp bounds
`min ≤ max`, the backoff delay is non-decreasing in the attempt number, and
once it reaches the configured maximum it stays clamped there for all later
attempts. -/
theorem c7_backoff_monotone_clamped (mult minB maxB : ℚ) (hm : 0 ≤ mult)
    (hb : minB ≤ maxB) (a b : Nat) (hab : a ≤ b) :
    backoff_delay mult minB maxB a ≤ backoff_delay mult minB maxB b ∧
    (backoff_delay mult minB maxB a = maxB →
      backoff_delay mult minB maxB b = maxB) := by
  have hpow : (2 : ℚ) ^ (a - 1) ≤ 2 ^ (b - 1) :=
    pow_le_pow_right₀ (by norm_num) (Nat.sub_le_sub_right hab 1)
  have hmono : backoff_delay mult minB maxB a ≤ backoff_delay mult minB maxB b := by
    unfold backoff_delay
    exact max_le_max le_rfl
      (min_le_min (mul_le_mul_of_nonneg_left hpow hm) le_rfl)
  refine ⟨hmono, fun hmax => le_antisymm ?_ ?_⟩
  · unfold backoff_delay
    exact max_le hb (min_le_right _ _)
  · have hmb := hmono
    rw [hmax] at hmb
    exact hmb

theorem c7_backoff_monotone_clamped_witness :
    backoff_delay 1 2 10 5 ≤ backoff_delay 1 2 10 6 ∧
    backoff_delay 1 2 10 6 = 10 := by
  have h := c7_backoff_monotone_clamped 1 2 10 (by norm_num) (by norm_num)
    5 6 (by norm_num)
  exact ⟨h.1, h.2 (by with_unfolding_all decide)⟩

/-- C8 counterexample: the claim's processing order — strip tags and the
annotation, then trim, then join with single spaces — predicts the text
`Hello world` for the cue lines `<b> Hello </b>` and `world`, but the code
trims before stripping tags and keeps the whitespace the tag removal
exposes, so the parser emits `Hello  world` with two spaces. -/
theorem c8_spec_order_counterexample :
    parse_vtt_content
        "WEBVTT\n\n00:00:00.000 --> 00:00:01.000\n<b> Hello </b>\nworld" =
      VttResult.ok [⟨"Hello  world", 0, 1, none⟩] ∧
    cueTextSpec ["<b> Hello </b>".data, "world".data] = "Hello world".data ∧
    ("Hello  world" : String) ≠ "Hello world" := by
  refine ⟨?_, ?_, ?_⟩ <;> with_unfolding_all decide

/-- C8 (amended): each cue text line is trimmed first, then `<...>` tags and
the `align:start position:NN%` annotation are removed; lines that became
empty are dropped and the kept lines are joined with single space
separators, the joined text being trimmed only at its ends — so whitespace
exposed inside a kept line by tag removal is preserved and the join can
contain consecutive spaces. The claim's concrete example still holds:
`<b>Hello</b> align:start position:0%world` yields `Hello world`. -/
theorem c8_markup_stripping_amended :
    parse_vtt_content
        "WEBVTT\n\n00:00:00.000 --> 00:00:01.000\n<b>Hello</b> align:start position:0%world" =
      VttResult.ok [⟨"Hello world", 0, 1, none⟩] ∧
    processTextLine "<b>Hello</b> align:start position:0%world".data =
      "Hello world".data ∧
    parse_vtt_content
        "WEBVTT\n\n00:00:00.000 --> 00:00:01.000\n<b> Hello </b>\nworld" =
      VttResult.ok [⟨"Hello  world", 0, 1, none⟩] := by
  refine ⟨?_, ?_, ?_⟩ <;> with_unfolding_all decide

/-- C9: `transcript_to_text` joins the segment texts with single spaces and
`transcript_to_timed_text` renders one `[MM:SS] text` line per segment with
floor-division minute/second formatting; a segment starting at 65.0 seconds
renders with the timestamp `[01:05]`. -/
theorem c9_text_projections :
    transcript_to_text
        [⟨"Hello everyone", 0, 2, none⟩, ⟨"welcome to the show", 2, 2.5, none⟩] =
      "Hello everyone welcome to the show" ∧
    transcript_to_timed_text
        [⟨"Hello everyone", 0, 2, none⟩, ⟨"welcome to the show", 2, 2.5, none⟩] =
      "[00:00] Hello everyone\n[00:02] welcome to the show" ∧
    transcript_to_timed_text [⟨"x", 65, 1, none⟩] = "[01:05] x" ∧
    ∀ a b : TranscriptSegment, transcript_to_text [a, b] = a.text ++ " " ++ b.text := by
  refine ⟨?_, ?_, ?_, fun a b => rfl⟩ <;> with_unfolding_all decide

/-- C10: `_should_retry_extraction` ignores the message for the three
permanent extractor errors (no retry) and for `CalledProcessError` (always
retry, even with no transient keyword), and for every other exception
retries exactly when the lowercased message contains one of the six
network-error indicators. -/
theorem c10_extraction_classifier :
    (∀ m : String,
      _should_retry_extraction (.transcriptsDisabled m) = false ∧
      _should_retry_extraction (.noTranscriptFound m) = false ∧
      _should_retry_extraction (.videoUnavailable m) = false ∧
      _should_retry_extraction (.calledProcessError m) = true ∧
      _should_retry_extraction (.transcriptExtractorError m) =
        anyIndicator networkErrorIndicators m ∧
      _should_retry_extraction (.otherExc m) =
        anyIndicator networkErrorIndicators m) ∧
    _should_retry_extraction (.calledProcessError "404 not found") = true ∧
    _should_retry_extraction (.otherExc "Connection Error while fetching") = true ∧
    _should_retry_extraction (.otherExc "some odd failure") = false ∧
    _should_retry_extraction (.transcriptsDisabled "timeout") = false := by
  refine ⟨fun m => ⟨rfl, rfl, rfl, rfl, rfl, rfl⟩, ?_, ?_, ?_, ?_⟩ <;>
    with_unfolding_all decide

theorem c3_roundtrip_witness :
    (∀ c ∈ [Cue.mk (0, 0, 0, 0) (0, 0, 2, 0) ["Hello everyone".data],
        Cue.mk (0, 0, 2, 0) (0, 0, 4, 500) ["welcome to the show".data]], wfCue c) ∧
    parse_vtt_content (renderVtt
        [Cue.mk (0, 0, 0, 0) (0, 0, 2, 0) ["Hello everyone".data],
         Cue.mk (0, 0, 2, 0) (0, 0, 4, 500) ["welcome to the show".data]]) =
      VttResult.ok
        ([Cue.mk (0, 0, 0, 0) (0, 0, 2, 0) ["Hello everyone".data],
          Cue.mk (0, 0, 2, 0) (0, 0, 4, 500) ["welcome to the show".data]].map
            cueToSegment) ∧
    ([Cue.mk (0, 0, 0, 0) (0, 0, 2, 0) ["Hello everyone".data],
      Cue.mk (0, 0, 2, 0) (0, 0, 4, 500) ["welcome to the show".data]].map
        cueToSegment) =
      [⟨"Hello everyone", 0, 2, none⟩, ⟨"welcome to the show", 2, 2.5, none⟩] := by
  have hwf : ∀ c ∈ [Cue.mk (0, 0, 0, 0) (0, 0, 2, 0) ["Hello everyone".data],
      Cue.mk (0, 0, 2, 0) (0, 0, 4, 500) ["welcome to the show".data]], wfCue c := by
    with_unfolding_all decide
  exact ⟨hwf, (c3_roundtrip _ hwf).1, by with_unfolding_all decide⟩
